import Mathlib

/-!
Verification of the adaptive grid-details layout engine of `eza`
(`src/output/grid_details.rs`), its styled-cell model (`src/output/cell.rs`)
and the file-type classifier (`src/info/filetype.rs`).

The stateful Rust code is shallowly embedded: external collaborators
(the `term_grid` packing routine, the Unicode width tables, the Git cache,
the per-column `Table`) enter as explicit parameters, and operations that can
panic in Rust (integer division by zero, out-of-bounds indexing) return
`Option`.
-/

namespace Eza

/-! ## Definitions -/

/-- `RowThreshold` from `grid_details.rs`: either require at least `k` rows of
output before the grid-details view is used, or always use it. -/
inductive RowThreshold where
  | MinimumRows (k : Nat)
  | AlwaysGrid
deriving DecidableEq, Repr

/-- The inputs that `Render::find_fitting_grid` consumes, with the external
collaborators abstracted:

* `numFiles` is `file_names.len()`;
* `widthAt c` is `self.make_grid(c, ...).fit_into_columns(c).width()`, the
  total rendered width of the trial grid with `c` columns (the `term_grid`
  crate's packing is an external collaborator, so it is a parameter);
* `rowCountAt j k` is `(make_grid j ...).fit_into_columns(k).row_count()`.

`make_grid` is a pure function of its column count by the time the search
loop runs: the one mutation in `make_table` (dropping `self.git`) has already
happened during the first `make_table` call, before the loop. -/
structure FFGEnv where
  numFiles : Nat
  consoleWidth : Nat
  rowThreshold : RowThreshold
  widthAt : Nat → Nat
  rowCountAt : Nat → Nat → Nat

/-- The `RowThreshold` check performed at the return point of the search
loop in `find_fitting_grid`: under `MinimumRows thresh` the chosen grid is
rejected when its row count is below `thresh`. -/
def thresholdGate (env : FFGEnv) (lastWorking lastColumnCount : Nat) :
    Option (Nat × Nat) :=
  match env.rowThreshold with
  | RowThreshold.MinimumRows thresh =>
      if env.rowCountAt lastWorking lastColumnCount < thresh then none
      else some (lastWorking, lastColumnCount)
  | RowThreshold.AlwaysGrid => some (lastWorking, lastColumnCount)

/-- The `for column_count in 2..100` loop of `find_fitting_grid`.

`lastWorking` records the column count at which `last_working_grid` was
built; `c` is the current `column_count`; `remaining` counts the iterations
left before `column_count` would reach 100 (so the loop is entered with
`c = 2` and `remaining = 98`, and falls off the end with `none` exactly when
the Rust loop terminates without returning). A returned pair
`(j, k)` stands for the Rust result `Some((last_working_grid, k))` where
`last_working_grid` was built with `j` columns. -/
def ffgLoop (env : FFGEnv) : Nat → Nat → Nat → Option (Nat × Nat)
  | _, _, 0 => none
  | lastWorking, c, remaining + 1 =>
      let theGridFits := decide (env.widthAt c ≤ env.consoleWidth)
      let lastWorking' := if theGridFits then c else lastWorking
      if !theGridFits || c == env.numFiles then
        thresholdGate env lastWorking' (if theGridFits then c else c - 1)
      else
        ffgLoop env lastWorking' (c + 1) remaining

/-- `Render::find_fitting_grid`. The initial `last_working_grid` is the
one-column grid; with exactly one file it is returned at once, otherwise the
search loop runs for `column_count` from 2 to 99. -/
def find_fitting_grid (env : FFGEnv) : Option (Nat × Nat) :=
  if env.numFiles == 1 then some (1, 1)
  else ffgLoop env 1 2 98

/-- Two files whose one-column and two-column trial grids are both 100
columns wide, against a 10-column console. -/
def narrowConsoleEnv : FFGEnv :=
  { numFiles := 2, consoleWidth := 10, rowThreshold := RowThreshold.AlwaysGrid,
    widthAt := fun _ => 100, rowCountAt := fun _ _ => 2 }

/-- Two files whose trial grids are 5·c columns wide against a 10-column
console, so the two-column grid fits exactly. -/
def fittingPairEnv : FFGEnv :=
  { numFiles := 2, consoleWidth := 10, rowThreshold := RowThreshold.AlwaysGrid,
    widthAt := fun c => 5 * c, rowCountAt := fun _ _ => 1 }

/-- Two files whose trial grids are all 100 columns wide against a 10-column
console: no column count fits at all. -/
def overWideEnv : FFGEnv :=
  { numFiles := 2, consoleWidth := 10, rowThreshold := RowThreshold.AlwaysGrid,
    widthAt := fun _ => 100, rowCountAt := fun _ _ => 2 }

/-- Three files whose trial grids are 3·c columns wide against a 10-column
console, so exactly the three-column grid is the widest fit. -/
def threeColumnEnv : FFGEnv :=
  { numFiles := 3, consoleWidth := 10, rowThreshold := RowThreshold.AlwaysGrid,
    widthAt := fun c => 3 * c, rowCountAt := fun _ _ => 1 }

/-- One file, `MinimumRows 5`, a fitting one-column grid of width 3 against a
10-column console, with row count 1. -/
def tinyMinRowsEnv : FFGEnv :=
  { numFiles := 1, consoleWidth := 10,
    rowThreshold := RowThreshold.MinimumRows 5,
    widthAt := fun _ => 3, rowCountAt := fun _ _ => 1 }

/-- Two files, `MinimumRows 1`, trial grids `c` columns wide against a
10-column console, row count 5 everywhere. -/
def twoFileMinRowsEnv : FFGEnv :=
  { numFiles := 2, consoleWidth := 10,
    rowThreshold := RowThreshold.MinimumRows 1,
    widthAt := fun c => c, rowCountAt := fun _ _ => 5 }

/-- One file whose one-column grid is 100 columns wide against a 10-column
console. -/
def singleWideFileEnv : FFGEnv :=
  { numFiles := 1, consoleWidth := 10, rowThreshold := RowThreshold.AlwaysGrid,
    widthAt := fun _ => 100, rowCountAt := fun _ _ => 1 }

/-- One file of width 30 in an 80-column console with a row threshold that a
search would reject. -/
def singleFileEnv : FFGEnv :=
  { numFiles := 1, consoleWidth := 80,
    rowThreshold := RowThreshold.MinimumRows 4,
    widthAt := fun _ => 30, rowCountAt := fun _ _ => 1 }

/-- `divide_rounding_up` from `grid_details.rs`. The Rust body starts with
the integer division `a / b`, which panics when `b = 0`, so the embedding
returns `none` in that case. -/
def divide_rounding_up (a b : Nat) : Option Nat :=
  if b = 0 then none
  else some (if a % b ≠ 0 then a / b + 1 else a / b)

/-- The column index `make_grid` computes for the file at position `i`:
`i % column_count` when `self.grid.across` holds, otherwise
`i / original_height`. -/
def gridColumnIndex (across : Bool) (column_count original_height i : Nat) :
    Nat :=
  if across then i % column_count else i / original_height

/-- `tables[index]` followed by a push, with the Rust indexing panic made
explicit: `none` when `index` is out of bounds. -/
def pushAt {α : Type} (tables : List (List α)) (index : Nat) (x : α) :
    Option (List (List α)) :=
  match tables[index]? with
  | some t => some (tables.set index (t ++ [x]))
  | none => none

/-- The `for (i, (file_name, row)) in file_names.iter().zip(rows).enumerate()`
loop of `make_grid`: push row `i` onto the table selected by
`gridColumnIndex`. -/
def distributeRows {α : Type} (across : Bool)
    (column_count original_height : Nat) :
    List (List α) → List α → Nat → Option (List (List α))
  | tables, [], _ => some tables
  | tables, r :: rest, i =>
      match pushAt tables
          (gridColumnIndex across column_count original_height i) r with
      | some tables' =>
          distributeRows across column_count original_height tables' rest
            (i + 1)
      | none => none

/-- The file-distribution phase of `Render::make_grid`: build `column_count`
fresh tables, each seeded with the header row that `make_table` pushes
before any file row when headers are enabled, compute
`original_height = divide_rounding_up(rows.len(), column_count)` from the
per-file rows only, and distribute the file rows. (`make_grid` computes a
second quotient `height` for the across-assembly phase; it has the same
divisor `column_count`, so its panic-freedom is the same question.) -/
def headerSeed {α : Type} : Option α → List α
  | some hdr => [hdr]
  | none => []

def make_grid_tables {α : Type} (across : Bool) (column_count : Nat)
    (header : Option α) (rows : List α) : Option (List (List α)) :=
  match divide_rounding_up rows.length column_count with
  | none => none
  | some original_height =>
      distributeRows across column_count original_height
        (List.replicate column_count (headerSeed header)) rows 0

/-- The rows the spec's distribution rule sends to column `j`, starting the
enumeration at index `i`. -/
def assignedRows {α : Type} (across : Bool)
    (column_count original_height j : Nat) : Nat → List α → List α
  | _, [] => []
  | i, r :: rest =>
      if gridColumnIndex across column_count original_height i = j then
        r :: assignedRows across column_count original_height j (i + 1) rest
      else assignedRows across column_count original_height j (i + 1) rest

/-- An `ansi_term::Style`; its contents are irrelevant to width tracking, so
only a placeholder field is kept. -/
structure Style where
  isBold : Bool := false
deriving DecidableEq

/-- An `ANSIString`: a style paired with the text it styles. -/
structure ANSIStr where
  style : Style
  string : String
deriving DecidableEq

/-- The display width of a string under a per-character width assignment `w`.
The real assignment comes from the external `unicode_width` crate, so it is
a parameter; Rust's `str::width` is the sum of the per-character widths. -/
def strDisplayWidth (w : Char → Nat) (s : String) : Nat :=
  (s.data.map w).sum

/-- `TextCell` from `cell.rs`: the styled fragments plus the cached
`length`. -/
structure TextCell where
  contents : List ANSIStr
  length : Nat
deriving DecidableEq

/-- `TextCell::paint`: measures the text with the Unicode width
collaborator (`text.width()`). -/
def TextCell.paint (w : Char → Nat) (style : Style) (text : String) :
    TextCell :=
  { length := strDisplayWidth w text, contents := [⟨style, text⟩] }

/-- `TextCell::paint_str`: stores `text.len()`, the UTF-8 byte length of
the string. -/
def TextCell.paint_str (style : Style) (text : String) : TextCell :=
  { length := text.utf8ByteSize, contents := [⟨style, text⟩] }

/-- `TextCell::blank`: a single styled hyphen with recorded length 1. -/
def TextCell.blank (style : Style) : TextCell :=
  { length := 1, contents := [⟨style, "-"⟩] }

/-- `TextCell::add_spaces`: append `count` unstyled spaces and bump the
cached length by `count`. -/
def TextCell.add_spaces (cell : TextCell) (count : Nat) : TextCell :=
  { length := cell.length + count,
    contents := cell.contents ++
      [⟨{}, String.mk (List.replicate count ' ')⟩] }

/-- `TextCell::push`: append one fragment together with a caller-supplied
length. -/
def TextCell.push (cell : TextCell) (string : ANSIStr) (length : Nat) :
    TextCell :=
  { contents := cell.contents ++ [string], length := cell.length + length }

/-- `TextCell::append`: concatenate another cell, summing the cached
lengths. -/
def TextCell.append (cell other : TextCell) : TextCell :=
  { length := cell.length + other.length,
    contents := cell.contents ++ other.contents }

/-- The actual display width of a cell's concatenated fragments under the
width assignment `w`. -/
def TextCell.displayWidth (w : Char → Nat) (cell : TextCell) : Nat :=
  (cell.contents.map (fun f => strDisplayWidth w f.string)).sum

/-- `QuoteStyle` from `file_name.rs`, as matched on in
`find_fitting_grid`. -/
inductive QuoteStyle where
  | QuoteSpaces
  | NoQuotes
deriving DecidableEq

/-- `EmbedHyperlinks` from `file_name.rs`. -/
inductive EmbedHyperlinks where
  | On
  | Off
deriving DecidableEq

/-- `ShowIcons` from `file_name.rs`; the payload is the configured icon
spacing. -/
inductive ShowIcons where
  | Automatic (spacing : Nat)
  | Always (spacing : Nat)
  | Never
deriving DecidableEq

/-- The `space_filename_offset` match of `find_fitting_grid` (lines
167-171): 2 when the quote style is `QuoteSpaces` and the file name contains
a space (Rust `file.name.contains(' ')`, a character-level search), 0 in the
`NoQuotes` and quote-free `QuoteSpaces` arms. -/
def space_filename_offset (qs : QuoteStyle) (name : String) : Nat :=
  match qs with
  | QuoteStyle.QuoteSpaces => if name.data.contains ' ' then 2 else 0
  | QuoteStyle.NoQuotes => 0

/-- The `width` match of `find_fitting_grid` (lines 172-186): the recorded
name-cell width as a function of the hyperlink and icon options, the bare
filename width, the painted contents' width, and the quoting offset. -/
def name_cell_width (embed : EmbedHyperlinks) (icons : ShowIcons)
    (bare_width contents_width offset : Nat) : Nat :=
  match embed, icons with
  | EmbedHyperlinks.On, ShowIcons.Automatic spacing =>
      bare_width + 1 + spacing + offset
  | EmbedHyperlinks.On, ShowIcons.Always spacing =>
      bare_width + 1 + spacing + offset
  | EmbedHyperlinks.On, ShowIcons.Never => bare_width + offset
  | EmbedHyperlinks.Off, _ => contents_width

/-- The fixed icon-spacing allowance of §6: one column for the icon glyph
plus the configured spacing, when icons are shown. -/
def iconAllowance : ShowIcons → Nat
  | ShowIcons.Automatic spacing => 1 + spacing
  | ShowIcons.Always spacing => 1 + spacing
  | ShowIcons.Never => 0

/-- Modelled from the spec: the display width of the painted contents
produced by `FileName::paint` (`src/output/file_name.rs`, not part of this
snapshot). Per §6, a name cell's width "reflects only the visible glyphs
actually occupying terminal columns, optionally plus a fixed icon-spacing
allowance and a quoting allowance (filenames containing a space get +2 width
when the active quoting mode wraps them)". -/
def modelled_contents_width (icons : ShowIcons) (qs : QuoteStyle)
    (name : String) (bare_width : Nat) : Nat :=
  bare_width + iconAllowance icons + space_filename_offset qs name

/-- The Git metadata collaborator (`GitCache` from `fs/feature/git.rs`, not
part of this snapshot), abstracted to the one query `make_table` performs:
`has_anything_for` on a path. -/
structure GitCache where
  has_anything_for : String → Bool

/-- A directory, reduced to the `path` field `make_table` reads. -/
structure MDir where
  path : String

/-- A file record, reduced to the fields the embedded functions read:
`name`, the lowercase `ext`, and `path`. -/
structure MFile where
  name : String
  ext : Option String
  path : String

/-- The Git-dropping step at the top of `Render::make_table` (lines
248-260): with a governing directory, query it; with a flat file list,
query every listed file; drop the Git reference when nothing is reported,
keep it otherwise. -/
def make_table_git (git : Option GitCache) (dir : Option MDir)
    (files : List MFile) : Option GitCache :=
  match git, dir with
  | some g, some d =>
      if ! g.has_anything_for d.path then none else some g
  | some g, none =>
      if ! files.any (fun f => g.has_anything_for f.path) then none
      else some g
  | none, _ => none

/-- Modelled from the spec: `Table::new` (`src/output/table.rs`, not part of
this snapshot) lays out a Git column exactly when it receives a Git
reference; `make_table` hands it the resolved reference before any row is
added, so a dropped reference omits the column entirely rather than
rendering it blank. -/
structure MTable where
  hasGitColumn : Bool

/-- `Render::make_table`, reduced to the Git-column decision: resolve the
Git reference first, then build the table from it (header rows are pushed
only after `Table::new`). -/
def make_table (git : Option GitCache) (dir : Option MDir)
    (files : List MFile) : MTable :=
  { hasGitColumn := (make_table_git git dir files).isSome }

/-- `FileType` from `filetype.rs`. -/
inductive FileType where
  | Image
  | Video
  | Music
  | Lossless
  | Crypto
  | Document
  | Compressed
  | Temp
  | Compiled
  | Build
  | Source
deriving DecidableEq, Repr

/-- The full-filename classification map `FILENAME_TYPES` from `filetype.rs`. -/
def FILENAME_TYPES : List (String × FileType) := [
  ("Brewfile", FileType.Build),
  ("bsconfig.json", FileType.Build),
  ("BUILD", FileType.Build),
  ("BUILD.bazel", FileType.Build),
  ("build.gradle", FileType.Build),
  ("build.sbt", FileType.Build),
  ("build.xml", FileType.Build),
  ("Cargo.toml", FileType.Build),
  ("CMakeLists.txt", FileType.Build),
  ("composer.json", FileType.Build),
  ("configure", FileType.Build),
  ("Containerfile", FileType.Build),
  ("Dockerfile", FileType.Build),
  ("Earthfile", FileType.Build),
  ("flake.nix", FileType.Build),
  ("Gemfile", FileType.Build),
  ("GNUmakefile", FileType.Build),
  ("Gruntfile.coffee", FileType.Build),
  ("Gruntfile.js", FileType.Build),
  ("jsconfig.json", FileType.Build),
  ("Justfile", FileType.Build),
  ("justfile", FileType.Build),
  ("Makefile", FileType.Build),
  ("makefile", FileType.Build),
  ("meson.build", FileType.Build),
  ("mix.exs", FileType.Build),
  ("package.json", FileType.Build),
  ("Pipfile", FileType.Build),
  ("PKGBUILD", FileType.Build),
  ("Podfile", FileType.Build),
  ("pom.xml", FileType.Build),
  ("Procfile", FileType.Build),
  ("pyproject.toml", FileType.Build),
  ("Rakefile", FileType.Build),
  ("RoboFile.php", FileType.Build),
  ("SConstruct", FileType.Build),
  ("tsconfig.json", FileType.Build),
  ("Vagrantfile", FileType.Build),
  ("webpack.config.cjs", FileType.Build),
  ("webpack.config.js", FileType.Build),
  ("WORKSPACE", FileType.Build),
  ("id_dsa", FileType.Crypto),
  ("id_ecdsa", FileType.Crypto),
  ("id_ecdsa_sk", FileType.Crypto),
  ("id_ed25519", FileType.Crypto),
  ("id_ed25519_sk", FileType.Crypto),
  ("id_rsa", FileType.Crypto)
]

/-- The lowercase-extension classification map `EXTENSION_TYPES` from `filetype.rs`. -/
def EXTENSION_TYPES : List (String × FileType) := [
  ("ninja", FileType.Build),
  ("arw", FileType.Image),
  ("avif", FileType.Image),
  ("bmp", FileType.Image),
  ("cbr", FileType.Image),
  ("cbz", FileType.Image),
  ("cr2", FileType.Image),
  ("dvi", FileType.Image),
  ("eps", FileType.Image),
  ("gif", FileType.Image),
  ("heic", FileType.Image),
  ("heif", FileType.Image),
  ("ico", FileType.Image),
  ("j2c", FileType.Image),
  ("j2k", FileType.Image),
  ("jfi", FileType.Image),
  ("jfif", FileType.Image),
  ("jif", FileType.Image),
  ("jp2", FileType.Image),
  ("jpe", FileType.Image),
  ("jpeg", FileType.Image),
  ("jpf", FileType.Image),
  ("jpg", FileType.Image),
  ("jpx", FileType.Image),
  ("jxl", FileType.Image),
  ("nef", FileType.Image),
  ("orf", FileType.Image),
  ("pbm", FileType.Image),
  ("pgm", FileType.Image),
  ("png", FileType.Image),
  ("pnm", FileType.Image),
  ("ppm", FileType.Image),
  ("ps", FileType.Image),
  ("psd", FileType.Image),
  ("pxm", FileType.Image),
  ("raw", FileType.Image),
  ("stl", FileType.Image),
  ("svg", FileType.Image),
  ("tif", FileType.Image),
  ("tiff", FileType.Image),
  ("webp", FileType.Image),
  ("xcf", FileType.Image),
  ("xpm", FileType.Image),
  ("avi", FileType.Video),
  ("flv", FileType.Video),
  ("h264", FileType.Video),
  ("heics", FileType.Video),
  ("m2ts", FileType.Video),
  ("m2v", FileType.Video),
  ("m4v", FileType.Video),
  ("mkv", FileType.Video),
  ("mov", FileType.Video),
  ("mp4", FileType.Video),
  ("mpeg", FileType.Video),
  ("mpg", FileType.Video),
  ("ogm", FileType.Video),
  ("ogv", FileType.Video),
  ("video", FileType.Video),
  ("vob", FileType.Video),
  ("webm", FileType.Video),
  ("wmv", FileType.Video),
  ("aac", FileType.Music),
  ("m4a", FileType.Music),
  ("mka", FileType.Music),
  ("mp2", FileType.Music),
  ("mp3", FileType.Music),
  ("ogg", FileType.Music),
  ("opus", FileType.Music),
  ("wma", FileType.Music),
  ("aif", FileType.Lossless),
  ("aifc", FileType.Lossless),
  ("aiff", FileType.Lossless),
  ("alac", FileType.Lossless),
  ("ape", FileType.Lossless),
  ("flac", FileType.Lossless),
  ("pcm", FileType.Lossless),
  ("wav", FileType.Lossless),
  ("wv", FileType.Lossless),
  ("asc", FileType.Crypto),
  ("gpg", FileType.Crypto),
  ("kbx", FileType.Crypto),
  ("md5", FileType.Crypto),
  ("p12", FileType.Crypto),
  ("pem", FileType.Crypto),
  ("pfx", FileType.Crypto),
  ("pgp", FileType.Crypto),
  ("pub", FileType.Crypto),
  ("sha1", FileType.Crypto),
  ("sha224", FileType.Crypto),
  ("sha256", FileType.Crypto),
  ("sha384", FileType.Crypto),
  ("sha512", FileType.Crypto),
  ("sig", FileType.Crypto),
  ("signature", FileType.Crypto),
  ("djvu", FileType.Document),
  ("doc", FileType.Document),
  ("docx", FileType.Document),
  ("eml", FileType.Document),
  ("fotd", FileType.Document),
  ("gdoc", FileType.Document),
  ("key", FileType.Document),
  ("keynote", FileType.Document),
  ("numbers", FileType.Document),
  ("odp", FileType.Document),
  ("ods", FileType.Document),
  ("odt", FileType.Document),
  ("pages", FileType.Document),
  ("pdf", FileType.Document),
  ("ppt", FileType.Document),
  ("pptx", FileType.Document),
  ("rtf", FileType.Document),
  ("xls", FileType.Document),
  ("xlsm", FileType.Document),
  ("xlsx", FileType.Document),
  ("7z", FileType.Compressed),
  ("ar", FileType.Compressed),
  ("arj", FileType.Compressed),
  ("br", FileType.Compressed),
  ("bz", FileType.Compressed),
  ("bz2", FileType.Compressed),
  ("bz3", FileType.Compressed),
  ("cpio", FileType.Compressed),
  ("deb", FileType.Compressed),
  ("dmg", FileType.Compressed),
  ("gz", FileType.Compressed),
  ("iso", FileType.Compressed),
  ("lz", FileType.Compressed),
  ("lz4", FileType.Compressed),
  ("lzh", FileType.Compressed),
  ("lzma", FileType.Compressed),
  ("lzo", FileType.Compressed),
  ("phar", FileType.Compressed),
  ("qcow", FileType.Compressed),
  ("qcow2", FileType.Compressed),
  ("rar", FileType.Compressed),
  ("rpm", FileType.Compressed),
  ("tar", FileType.Compressed),
  ("taz", FileType.Compressed),
  ("tbz", FileType.Compressed),
  ("tbz2", FileType.Compressed),
  ("tc", FileType.Compressed),
  ("tgz", FileType.Compressed),
  ("tlz", FileType.Compressed),
  ("txz", FileType.Compressed),
  ("tz", FileType.Compressed),
  ("xz", FileType.Compressed),
  ("vdi", FileType.Compressed),
  ("vhd", FileType.Compressed),
  ("vmdk", FileType.Compressed),
  ("z", FileType.Compressed),
  ("zip", FileType.Compressed),
  ("zst", FileType.Compressed),
  ("bak", FileType.Temp),
  ("bk", FileType.Temp),
  ("bkp", FileType.Temp),
  ("crdownload", FileType.Temp),
  ("download", FileType.Temp),
  ("fdmdownload", FileType.Temp),
  ("part", FileType.Temp),
  ("swn", FileType.Temp),
  ("swo", FileType.Temp),
  ("swp", FileType.Temp),
  ("tmp", FileType.Temp),
  ("a", FileType.Compiled),
  ("bundle", FileType.Compiled),
  ("class", FileType.Compiled),
  ("cma", FileType.Compiled),
  ("cmi", FileType.Compiled),
  ("cmo", FileType.Compiled),
  ("cmx", FileType.Compiled),
  ("dll", FileType.Compiled),
  ("dylib", FileType.Compiled),
  ("elc", FileType.Compiled),
  ("ko", FileType.Compiled),
  ("lib", FileType.Compiled),
  ("o", FileType.Compiled),
  ("obj", FileType.Compiled),
  ("pyc", FileType.Compiled),
  ("pyd", FileType.Compiled),
  ("pyo", FileType.Compiled),
  ("so", FileType.Compiled),
  ("zwc", FileType.Compiled),
  ("applescript", FileType.Source),
  ("as", FileType.Source),
  ("asa", FileType.Source),
  ("awk", FileType.Source),
  ("c", FileType.Source),
  ("c++", FileType.Source),
  ("cabal", FileType.Source),
  ("cc", FileType.Source),
  ("clj", FileType.Source),
  ("cp", FileType.Source),
  ("cpp", FileType.Source),
  ("cr", FileType.Source),
  ("cs", FileType.Source),
  ("css", FileType.Source),
  ("csx", FileType.Source),
  ("cu", FileType.Source),
  ("cxx", FileType.Source),
  ("d", FileType.Source),
  ("dart", FileType.Source),
  ("di", FileType.Source),
  ("dpr", FileType.Source),
  ("el", FileType.Source),
  ("elm", FileType.Source),
  ("erl", FileType.Source),
  ("ex", FileType.Source),
  ("exs", FileType.Source),
  ("fs", FileType.Source),
  ("fsh", FileType.Source),
  ("fsi", FileType.Source),
  ("fsx", FileType.Source),
  ("go", FileType.Source),
  ("gradle", FileType.Source),
  ("groovy", FileType.Source),
  ("gvy", FileType.Source),
  ("h", FileType.Source),
  ("h++", FileType.Source),
  ("hpp", FileType.Source),
  ("hs", FileType.Source),
  ("htc", FileType.Source),
  ("hxx", FileType.Source),
  ("inc", FileType.Source),
  ("inl", FileType.Source),
  ("ipynb", FileType.Source),
  ("java", FileType.Source),
  ("jl", FileType.Source),
  ("js", FileType.Source),
  ("jsx", FileType.Source),
  ("kt", FileType.Source),
  ("kts", FileType.Source),
  ("less", FileType.Source),
  ("lhs", FileType.Source),
  ("lisp", FileType.Source),
  ("ltx", FileType.Source),
  ("lua", FileType.Source),
  ("m", FileType.Source),
  ("matlab", FileType.Source),
  ("ml", FileType.Source),
  ("mli", FileType.Source),
  ("mn", FileType.Source),
  ("nb", FileType.Source),
  ("p", FileType.Source),
  ("pas", FileType.Source),
  ("php", FileType.Source),
  ("pl", FileType.Source),
  ("pm", FileType.Source),
  ("pod", FileType.Source),
  ("pp", FileType.Source),
  ("ps1", FileType.Source),
  ("psd1", FileType.Source),
  ("psm1", FileType.Source),
  ("purs", FileType.Source),
  ("py", FileType.Source),
  ("r", FileType.Source),
  ("rb", FileType.Source),
  ("rs", FileType.Source),
  ("sass", FileType.Source),
  ("scala", FileType.Source),
  ("scss", FileType.Source),
  ("sql", FileType.Source),
  ("swift", FileType.Source),
  ("tcl", FileType.Source),
  ("tex", FileType.Source),
  ("ts", FileType.Source),
  ("v", FileType.Source),
  ("vb", FileType.Source),
  ("vsh", FileType.Source)
]

/-- `FileType::get_file_type` from `filetype.rs`. Rust-side details mapped
here:

* `file.name.to_lowercase().starts_with("readme")` becomes an ASCII
  per-character lowering of the name's characters followed by a prefix
  check — adequate for this pattern because no character outside ASCII
  lowercases to any of the letters of "readme";
* the `phf` map lookups are exact string lookups;
* `ends_with('~')` and `starts_with('#')` are single-character checks on
  the ends of the name;
* the final `parent_dir`/`get_source_files` check walks the filesystem
  (`fs` module, not part of this snapshot), so its outcome is the
  parameter `compiled_related`. -/
def get_file_type (f : MFile) (compiled_related : Bool) : Option FileType :=
  if List.isPrefixOf "readme".data (f.name.data.map Char.toLower) then
    some FileType.Build
  else match FILENAME_TYPES.lookup f.name with
  | some t => some t
  | none =>
    match f.ext.bind (fun ext => EXTENSION_TYPES.lookup ext) with
    | some t => some t
    | none =>
      if f.name.data.getLast? == some '~' ||
          (f.name.data.head? == some '#' &&
            f.name.data.getLast? == some '#') then
        some FileType.Temp
      else if compiled_related then some FileType.Compiled
      else none

/-! ## Theorems -/

theorem thresholdGate_some (env : FFGEnv) {a b : Nat} {p : Nat × Nat}
    (h : thresholdGate env a b = some p) : p = (a, b) := by
  unfold thresholdGate at h
  cases hrt : env.rowThreshold with
  | MinimumRows kk =>
      rw [hrt] at h
      simp only at h
      split at h
      · exact absurd h (by simp)
      · exact (Option.some.inj h).symm
  | AlwaysGrid =>
      rw [hrt] at h
      exact (Option.some.inj h).symm

theorem thresholdGate_minimumRows (env : FFGEnv) {a b kk : Nat} {p : Nat × Nat}
    (hrt : env.rowThreshold = RowThreshold.MinimumRows kk)
    (h : thresholdGate env a b = some p) :
    p = (a, b) ∧ kk ≤ env.rowCountAt a b := by
  unfold thresholdGate at h
  rw [hrt] at h
  simp only at h
  split at h
  · exact absurd h (by simp)
  · next hge => exact ⟨(Option.some.inj h).symm, Nat.le_of_not_lt hge⟩

theorem thresholdGate_alwaysGrid (env : FFGEnv)
    (hrt : env.rowThreshold = RowThreshold.AlwaysGrid) (a b : Nat) :
    thresholdGate env a b = some (a, b) := by
  unfold thresholdGate
  rw [hrt]

/-- One unfolding step of the search loop, with the booleans of the source
turned into propositional case splits. -/
theorem ffgLoop_succ (env : FFGEnv) (lastWorking c n : Nat) :
    ffgLoop env lastWorking c (n + 1) =
      if env.widthAt c ≤ env.consoleWidth then
        if c = env.numFiles then thresholdGate env c c
        else ffgLoop env c (c + 1) n
      else thresholdGate env lastWorking (c - 1) := by
  by_cases hfit : env.widthAt c ≤ env.consoleWidth
  · by_cases hcn : c = env.numFiles
    · subst hcn
      simp [ffgLoop, hfit]
    · simp [ffgLoop, hfit, hcn]
  · by_cases hcn : c = env.numFiles
    · subst hcn
      simp [ffgLoop, hfit]
    · simp [ffgLoop, hfit, hcn]

theorem ffgLoop_zero (env : FFGEnv) (lastWorking c : Nat) :
    ffgLoop env lastWorking c 0 = none := rfl

/-- Soundness invariant of the loop: any successful result is a pair of equal
column counts, and its width was actually checked against the console width
unless it is the initial one-column grid. -/
theorem ffgLoop_width_sound (env : FFGEnv) :
    ∀ (remaining c lastWorking j k : Nat),
      lastWorking + 1 = c →
      (env.widthAt lastWorking ≤ env.consoleWidth ∨ lastWorking = 1) →
      ffgLoop env lastWorking c remaining = some (j, k) →
      j = k ∧ (env.widthAt k ≤ env.consoleWidth ∨ k = 1) := by
  intro remaining
  induction remaining with
  | zero =>
      intro c lw j k _ _ h
      rw [ffgLoop_zero] at h
      exact absurd h (by simp)
  | succ n ih =>
      intro c lw j k hc hinv h
      rw [ffgLoop_succ] at h
      split_ifs at h with hfit hcn
      · have hp := thresholdGate_some env h
        rw [Prod.mk.injEq] at hp
        obtain ⟨hj, hk⟩ := hp
        exact ⟨hj.trans hk.symm, hk ▸ Or.inl hfit⟩
      · exact ih (c + 1) c j k rfl (Or.inl hfit) h
      · have hp := thresholdGate_some env h
        rw [Prod.mk.injEq] at hp
        obtain ⟨hj, hk⟩ := hp
        have hlw : c - 1 = lw := by omega
        subst hj hk
        exact ⟨by omega, by rw [hlw]; exact hinv⟩

/-- Under a monotone width function whose one-column value fits, the loop
returns the largest fitting column count. -/
theorem ffgLoop_max_fitting (env : FFGEnv)
    (hmono : ∀ a b, a ≤ b → env.widthAt a ≤ env.widthAt b) :
    ∀ (remaining c lastWorking j k : Nat),
      c + remaining = 100 →
      lastWorking + 1 = c →
      1 ≤ lastWorking →
      c ≤ env.numFiles →
      env.widthAt lastWorking ≤ env.consoleWidth →
      ffgLoop env lastWorking c remaining = some (j, k) →
      env.widthAt k ≤ env.consoleWidth ∧ 1 ≤ k ∧ k ≤ min 99 env.numFiles ∧
        ∀ cc, cc ≤ min 99 env.numFiles → env.widthAt cc ≤ env.consoleWidth →
          cc ≤ k := by
  intro remaining
  induction remaining with
  | zero =>
      intro c lw j k _ _ _ _ _ h
      rw [ffgLoop_zero] at h
      exact absurd h (by simp)
  | succ n ih =>
      intro c lw j k hrem hc hlw1 hcN hlwfit h
      rw [ffgLoop_succ] at h
      split_ifs at h with hfit hcn
      · have hp := thresholdGate_some env h
        rw [Prod.mk.injEq] at hp
        obtain ⟨hj, hk⟩ := hp
        subst hj hk
        refine ⟨hfit, by omega, by omega, fun cc hcc _ => by omega⟩
      · exact ih (c + 1) c j k (by omega) rfl (by omega) (by omega) hfit h
      · have hp := thresholdGate_some env h
        rw [Prod.mk.injEq] at hp
        obtain ⟨hj, hk⟩ := hp
        have hk' : k = lw := by omega
        refine ⟨by rw [hk']; exact hlwfit, by omega, by omega,
          fun cc hcc hccfit => ?_⟩
        by_contra hgt
        have hcle : c ≤ cc := by omega
        exact hfit (le_trans (hmono c cc hcle) hccfit)

/-- Every successful result of the loop was accepted by the row-threshold
gate. -/
theorem ffgLoop_minimumRows (env : FFGEnv) {kk : Nat}
    (hrt : env.rowThreshold = RowThreshold.MinimumRows kk) :
    ∀ (remaining c lastWorking j k : Nat),
      ffgLoop env lastWorking c remaining = some (j, k) →
      kk ≤ env.rowCountAt j k := by
  intro remaining
  induction remaining with
  | zero =>
      intro c lw j k h
      rw [ffgLoop_zero] at h
      exact absurd h (by simp)
  | succ n ih =>
      intro c lw j k h
      rw [ffgLoop_succ] at h
      split_ifs at h with hfit hcn
      · obtain ⟨hp, hcount⟩ := thresholdGate_minimumRows env hrt h
        rw [Prod.mk.injEq] at hp
        obtain ⟨hj, hk⟩ := hp
        subst hj hk; exact hcount
      · exact ih (c + 1) c j k h
      · obtain ⟨hp, hcount⟩ := thresholdGate_minimumRows env hrt h
        rw [Prod.mk.injEq] at hp
        obtain ⟨hj, hk⟩ := hp
        subst hj hk; exact hcount

/-- Under `AlwaysGrid` the loop comes back empty-handed only by running into
the hard ceiling of 99 columns, which needs at least 100 files. -/
theorem ffgLoop_alwaysGrid_none (env : FFGEnv)
    (hrt : env.rowThreshold = RowThreshold.AlwaysGrid) :
    ∀ (remaining c lastWorking : Nat),
      c + remaining = 100 →
      c ≤ env.numFiles →
      ffgLoop env lastWorking c remaining = none →
      100 ≤ env.numFiles := by
  intro remaining
  induction remaining with
  | zero =>
      intro c lw hrem hcN _
      omega
  | succ n ih =>
      intro c lw hrem hcN h
      rw [ffgLoop_succ] at h
      split_ifs at h with hfit hcn
      · rw [thresholdGate_alwaysGrid env hrt] at h
        exact absurd h (by simp)
      · exact ih (c + 1) c (by omega) (by omega) h
      · rw [thresholdGate_alwaysGrid env hrt] at h
        exact absurd h (by simp)

/-- C1 is false on the code: when even `column_count = 2` fails to fit,
`find_fitting_grid` does not report failure — it returns the initial
one-column grid, whose rendered width (100) was never checked against the
console width (10) and exceeds it. -/
theorem find_fitting_grid_no_give_up_counterexample :
    find_fitting_grid narrowConsoleEnv = some (1, 1) ∧
      narrowConsoleEnv.consoleWidth < narrowConsoleEnv.widthAt 1 := by
  decide

/-- C1, amended: `find_fitting_grid` returns either the give-up signal or a
grid built and fit at one single column count `k`; that grid's total rendered
width is at most the console width unless `k = 1` — the one-column grid,
returned both for a single file and when `column_count = 2` already fails, is
never width-checked and may be wider than the console. -/
theorem find_fitting_grid_width_or_one_column (env : FFGEnv) (j k : Nat)
    (h : find_fitting_grid env = some (j, k)) :
    j = k ∧ (env.widthAt k ≤ env.consoleWidth ∨ k = 1) := by
  unfold find_fitting_grid at h
  split at h
  · have hp := Option.some.inj h
    rw [Prod.mk.injEq] at hp
    obtain ⟨hj, hk⟩ := hp
    exact ⟨hj ▸ hk ▸ rfl, Or.inr hk.symm⟩
  · exact ffgLoop_width_sound env 98 2 1 j k rfl (Or.inr rfl) h

theorem find_fitting_grid_width_or_one_column_witness :
    (2 : Nat) = 2 ∧
      (fittingPairEnv.widthAt 2 ≤ fittingPairEnv.consoleWidth ∨ (2 : Nat) = 1) :=
  find_fitting_grid_width_or_one_column fittingPairEnv 2 2 (by decide)

/-- C2 is false on the code: the search succeeds with column count 1 even
though the one-column width 100 exceeds the console width 10, so the
returned column count is not a value of `[1, min(99, N)]` for which the
total width fits — no such value exists, yet a grid is returned. -/
theorem find_fitting_grid_not_max_counterexample :
    find_fitting_grid overWideEnv = some (1, 1) ∧
      ¬ overWideEnv.widthAt 1 ≤ overWideEnv.consoleWidth := by
  decide

/-- C2, amended: provided the total width is non-decreasing in the column
count (the monotonicity the spec itself lists as an assumption under test)
and the one-column grid fits the console, every successful result with at
least two files carries the maximum column count in `[1, min(99, N)]` whose
total width fits. -/
theorem find_fitting_grid_max_columns (env : FFGEnv) (j k : Nat)
    (hmono : ∀ a b, a ≤ b → env.widthAt a ≤ env.widthAt b)
    (hone : env.widthAt 1 ≤ env.consoleWidth)
    (hN : 2 ≤ env.numFiles)
    (h : find_fitting_grid env = some (j, k)) :
    env.widthAt k ≤ env.consoleWidth ∧ 1 ≤ k ∧ k ≤ min 99 env.numFiles ∧
      ∀ cc, cc ≤ min 99 env.numFiles → env.widthAt cc ≤ env.consoleWidth →
        cc ≤ k := by
  unfold find_fitting_grid at h
  split at h
  · next heq =>
      simp only [beq_iff_eq] at heq
      omega
  · exact ffgLoop_max_fitting env hmono 98 2 1 j k (by omega) rfl (le_refl 1)
      hN hone h

theorem find_fitting_grid_max_columns_witness :
    threeColumnEnv.widthAt 3 ≤ threeColumnEnv.consoleWidth ∧ (1 : Nat) ≤ 3 ∧
      3 ≤ min 99 threeColumnEnv.numFiles ∧
      ∀ cc, cc ≤ min 99 threeColumnEnv.numFiles →
        threeColumnEnv.widthAt cc ≤ threeColumnEnv.consoleWidth → cc ≤ 3 :=
  find_fitting_grid_max_columns threeColumnEnv 3 3
    (by intro a b hab; show 3 * a ≤ 3 * b; omega)
    (by decide) (by decide) (by decide)

/-- C4 is false on the code: the single-file early return bypasses the
row-threshold check, so a fitting grid whose row count 1 is below the
`MinimumRows 5` threshold is still returned instead of the give-up signal. -/
theorem find_fitting_grid_threshold_bypass_counterexample :
    find_fitting_grid tinyMinRowsEnv = some (1, 1) ∧
      tinyMinRowsEnv.rowThreshold = RowThreshold.MinimumRows 5 ∧
      tinyMinRowsEnv.widthAt 1 ≤ tinyMinRowsEnv.consoleWidth ∧
      tinyMinRowsEnv.rowCountAt 1 1 < 5 := by
  decide

/-- C4, amended (restricted to at least two files): under `MinimumRows k`
every returned grid has row count at least `k`, and under `AlwaysGrid` a
give-up can only come from the hard 99-column ceiling (at least 100 files),
never from the row count. -/
theorem find_fitting_grid_row_threshold (env : FFGEnv)
    (hN : 2 ≤ env.numFiles) :
    (∀ kk j k, env.rowThreshold = RowThreshold.MinimumRows kk →
        find_fitting_grid env = some (j, k) → kk ≤ env.rowCountAt j k) ∧
    (env.rowThreshold = RowThreshold.AlwaysGrid →
        find_fitting_grid env = none → 100 ≤ env.numFiles) := by
  constructor
  · intro kk j k hrt h
    unfold find_fitting_grid at h
    split at h
    · next heq =>
        simp only [beq_iff_eq] at heq
        omega
    · exact ffgLoop_minimumRows env hrt 98 2 1 j k h
  · intro hrt h
    unfold find_fitting_grid at h
    split at h
    · exact absurd h (by simp)
    · exact ffgLoop_alwaysGrid_none env hrt 98 2 1 (by omega) hN h

theorem find_fitting_grid_row_threshold_witness :
    (1 : Nat) ≤ twoFileMinRowsEnv.rowCountAt 2 2 :=
  (find_fitting_grid_row_threshold twoFileMinRowsEnv (by decide)).1 1 2 2 rfl
    (by decide)

/-- C6 is false on the code: with exactly one file the engine returns the
one-column grid even when the console width (10) does not accommodate it
(width 100); it does not fall back to the give-up signal. -/
theorem find_fitting_grid_single_file_counterexample :
    find_fitting_grid singleWideFileEnv = some (1, 1) ∧
      singleWideFileEnv.consoleWidth < singleWideFileEnv.widthAt 1 := by
  decide

/-- C6, amended: with exactly one file `find_fitting_grid` immediately
returns the one-column grid, for every console width, width function and row
threshold — the column-count search and all width and row-count checks are
skipped, and the give-up signal is never produced. -/
theorem find_fitting_grid_single_file (env : FFGEnv)
    (h1 : env.numFiles = 1) :
    find_fitting_grid env = some (1, 1) := by
  unfold find_fitting_grid
  simp [h1]

theorem find_fitting_grid_single_file_witness :
    find_fitting_grid singleFileEnv = some (1, 1) :=
  find_fitting_grid_single_file singleFileEnv rfl

theorem divide_rounding_up_pos (a b : Nat) (hb : b ≠ 0) :
    divide_rounding_up a b =
      some (if a % b ≠ 0 then a / b + 1 else a / b) := by
  unfold divide_rounding_up
  rw [if_neg hb]

/-- The quotient returned by `divide_rounding_up` is the exact ceiling:
`b * oh` covers `a`, and `oh` is positive as soon as `a` is. -/
theorem divide_rounding_up_spec (a b oh : Nat) (hb : 1 ≤ b)
    (h : divide_rounding_up a b = some oh) :
    a ≤ b * oh ∧ (1 ≤ a → 1 ≤ oh) := by
  rw [divide_rounding_up_pos a b (by omega)] at h
  have hval := Option.some.inj h
  have hdm := Nat.div_add_mod a b
  have hmlt : a % b < b := Nat.mod_lt a (by omega)
  by_cases hm : a % b = 0
  · rw [if_neg (by omega)] at hval
    subst hval
    constructor
    · omega
    · intro ha
      have hba : b ≤ a := Nat.le_of_dvd (by omega) (Nat.dvd_of_mod_eq_zero hm)
      exact Nat.div_pos hba (by omega)
  · rw [if_pos hm] at hval
    subst hval
    refine ⟨?_, fun _ => Nat.le_add_left 1 (a / b)⟩
    have hexp : b * (a / b + 1) = b * (a / b) + b := by ring
    omega

theorem gridColumnIndex_lt (across : Bool) (c oh i N : Nat) (hc : 1 ≤ c)
    (hiN : i < N) (hcov : N ≤ c * oh) :
    gridColumnIndex across c oh i < c := by
  unfold gridColumnIndex
  cases across with
  | true => exact Nat.mod_lt i (by omega)
  | false =>
      simp only [Bool.false_eq_true, if_false]
      have hoh : 0 < oh := by
        rcases Nat.eq_zero_or_pos oh with h0 | h1
        · subst h0; omega
        · exact h1
      exact (Nat.div_lt_iff_lt_mul hoh).mpr (by omega)

theorem pushAt_of_lt {α : Type} (tables : List (List α)) (index : Nat) (x : α)
    (h : index < tables.length) :
    pushAt tables index x = some (tables.set index (tables[index] ++ [x])) := by
  unfold pushAt
  rw [List.getElem?_eq_getElem h]

/-- As long as every computed column index is in bounds, the distribution
loop cannot panic. -/
theorem distributeRows_isSome {α : Type} (across : Bool) (c oh N : Nat)
    (hc : 1 ≤ c) (hcov : N ≤ c * oh) :
    ∀ (rows : List α) (tables : List (List α)) (i : Nat),
      tables.length = c → i + rows.length ≤ N →
      (distributeRows across c oh tables rows i).isSome = true := by
  intro rows
  induction rows with
  | nil =>
      intro tables i _ _
      rfl
  | cons r rest ih =>
      intro tables i hlen hbound
      simp only [List.length_cons] at hbound
      have hidx : gridColumnIndex across c oh i < c :=
        gridColumnIndex_lt across c oh i N hc (by omega) hcov
      unfold distributeRows
      rw [pushAt_of_lt tables _ r (by omega)]
      exact ih _ (i + 1) (by rw [List.length_set]; omega) (by omega)

/-- Contents of the distributed tables: table `j` ends up holding its seed
followed by exactly the rows whose enumeration index is sent to `j`, in
order. -/
theorem distributeRows_getElem {α : Type} (across : Bool) (c oh : Nat) :
    ∀ (rows : List α) (tables final : List (List α)) (i : Nat),
      distributeRows across c oh tables rows i = some final →
      final.length = tables.length ∧
      ∀ j, (hj : j < tables.length) →
        final[j]? = some (tables[j] ++ assignedRows across c oh j i rows) := by
  intro rows
  induction rows with
  | nil =>
      intro tables final i h
      have hfin : tables = final := Option.some.inj h
      subst hfin
      refine ⟨rfl, fun j hj => ?_⟩
      rw [List.getElem?_eq_getElem hj]
      simp [assignedRows]
  | cons r rest ih =>
      intro tables final i h
      unfold distributeRows at h
      cases hpush : pushAt tables (gridColumnIndex across c oh i) r with
      | none =>
          rw [hpush] at h
          exact absurd h (by simp)
      | some tables' =>
          rw [hpush] at h
          simp only at h
          unfold pushAt at hpush
          cases hget : tables[gridColumnIndex across c oh i]? with
          | none =>
              rw [hget] at hpush
              exact absurd hpush (by simp)
          | some tIdx =>
              rw [hget] at hpush
              have hidx : gridColumnIndex across c oh i < tables.length :=
                (List.getElem?_eq_some_iff.mp hget).1
              have htIdx : tables[gridColumnIndex across c oh i] = tIdx :=
                (List.getElem?_eq_some_iff.mp hget).2
              have htv := Option.some.inj hpush
              subst htv
              obtain ⟨hlen, hih⟩ := ih _ final (i + 1) h
              rw [List.length_set] at hlen
              refine ⟨hlen, fun j hj => ?_⟩
              rw [hih j (by rw [List.length_set]; exact hj)]
              by_cases hjidx : gridColumnIndex across c oh i = j
              · subst hjidx
                rw [List.getElem_set_self, ← htIdx]
                simp [assignedRows]
              · rw [List.getElem_set_ne hjidx]
                simp [assignedRows, hjidx]

/-- The number of rows assigned to column `j` is the number of enumeration
indices sent to `j`. -/
theorem assignedRows_length {α : Type} (across : Bool) (c oh j : Nat) :
    ∀ (rows : List α) (i : Nat),
      (assignedRows across c oh j i rows).length =
        (List.range rows.length).countP
          (fun t => gridColumnIndex across c oh (i + t) == j) := by
  intro rows
  induction rows with
  | nil =>
      intro i
      rfl
  | cons r rest ih =>
      intro i
      have hfun : ((fun t => gridColumnIndex across c oh (i + t) == j) ∘
            Nat.succ) =
          (fun t => gridColumnIndex across c oh (i + 1 + t) == j) := by
        funext t
        simp only [Function.comp]
        rw [show i + Nat.succ t = i + 1 + t by omega]
      rw [List.length_cons, List.range_succ_eq_map, List.countP_cons,
        List.countP_map, hfun, ← ih (i + 1)]
      by_cases hj : gridColumnIndex across c oh i = j
      · rw [if_pos (by simpa using hj)]
        simp only [assignedRows, if_pos hj, List.length_cons]
      · rw [if_neg (by simpa using hj)]
        simp only [assignedRows, if_neg hj, Nat.add_zero]

theorem countP_range_mono (p : Nat → Bool) {a b : Nat} (h : a ≤ b) :
    (List.range a).countP p ≤ (List.range b).countP p :=
  (List.range_sublist.mpr h).countP_le p

/-- Shifting a residue class: `m % c = j` exactly when
`(m + (j' - j)) % c = j'`, for `j ≤ j' < c`. -/
theorem mod_shift_iff (c j j' m : Nat) (hj : j ≤ j') (hj' : j' < c) :
    m % c = j ↔ (m + (j' - j)) % c = j' := by
  have hc : 0 < c := by omega
  have hr : m % c < c := Nat.mod_lt m hc
  have hd : (m + (j' - j)) % c = (m % c + (j' - j)) % c := by
    rw [Nat.add_mod, Nat.mod_eq_of_lt (show j' - j < c by omega)]
  rcases Nat.lt_or_ge (m % c + (j' - j)) c with hlt | hge
  · rw [hd, Nat.mod_eq_of_lt hlt]
    omega
  · have hsub : (m % c + (j' - j)) % c = m % c + (j' - j) - c := by
      rw [Nat.mod_eq_sub_mod hge, Nat.mod_eq_of_lt (by omega)]
    rw [hd, hsub]
    omega

/-- Shifting a quotient class: `m / oh = j` exactly when
`(m + (j' - j) * oh) / oh = j'`, for `j ≤ j'` and positive `oh`. -/
theorem div_shift_iff (oh j j' m : Nat) (hoh : 0 < oh) (hj : j ≤ j') :
    m / oh = j ↔ (m + (j' - j) * oh) / oh = j' := by
  rw [Nat.add_mul_div_right m (j' - j) hoh]
  omega

/-- Counting the residue class `j'` below `N` equals counting the class `j`
below `N - (j' - j)`. -/
theorem countP_mod_shift (c j j' : Nat) (hj : j ≤ j') (hj' : j' < c) :
    ∀ N, (List.range N).countP (fun t => t % c == j') =
      (List.range (N - (j' - j))).countP (fun t => t % c == j) := by
  intro N
  induction N with
  | zero =>
      rw [Nat.zero_sub]
      rfl
  | succ n ih =>
      rw [List.range_succ, List.countP_append]
      rcases Nat.lt_or_ge n (j' - j) with hlt | hge
      · have h1 : n + 1 - (j' - j) = 0 := by omega
        have h0 : n - (j' - j) = 0 := by omega
        rw [h1]
        rw [h0] at ih
        rw [ih]
        have hn : n % c = n := Nat.mod_eq_of_lt (by omega)
        have : (n % c == j') = false := by
          rw [hn]
          simp only [beq_eq_false_iff_ne, ne_eq]
          omega
        simp [this]
      · have h1 : n + 1 - (j' - j) = (n - (j' - j)) + 1 := by omega
        rw [h1, List.range_succ, List.countP_append, ← ih]
        have hmod : (n % c == j') = ((n - (j' - j)) % c == j) := by
          have hiff := mod_shift_iff c j j' (n - (j' - j)) hj hj'
          rw [show n - (j' - j) + (j' - j) = n by omega] at hiff
          rw [Bool.eq_iff_iff]
          simp only [beq_iff_eq]
          exact hiff.symm
        simp only [List.countP_cons, List.countP_nil, hmod]

/-- Counting the quotient class `j'` below `N` equals counting the class `j`
below `N - (j' - j) * oh`. -/
theorem countP_div_shift (oh j j' : Nat) (hoh : 0 < oh) (hj : j ≤ j') :
    ∀ N, (List.range N).countP (fun t => t / oh == j') =
      (List.range (N - (j' - j) * oh)).countP (fun t => t / oh == j) := by
  intro N
  induction N with
  | zero =>
      rw [Nat.zero_sub]
      rfl
  | succ n ih =>
      rw [List.range_succ, List.countP_append]
      rcases Nat.lt_or_ge n ((j' - j) * oh) with hlt | hge
      · have h1 : n + 1 - (j' - j) * oh = 0 := by omega
        have h0 : n - (j' - j) * oh = 0 := by omega
        rw [h1]
        rw [h0] at ih
        rw [ih]
        have hdiv : n / oh < j' - j := (Nat.div_lt_iff_lt_mul hoh).mpr hlt
        have : (n / oh == j') = false := by
          simp only [beq_eq_false_iff_ne, ne_eq]
          omega
        simp [this]
      · have h1 : n + 1 - (j' - j) * oh = (n - (j' - j) * oh) + 1 := by omega
        rw [h1, List.range_succ, List.countP_append, ← ih]
        have hmod : (n / oh == j') = ((n - (j' - j) * oh) / oh == j) := by
          have hiff := div_shift_iff oh j j' (n - (j' - j) * oh) hoh hj
          rw [show n - (j' - j) * oh + (j' - j) * oh = n by omega] at hiff
          rw [Bool.eq_iff_iff]
          simp only [beq_iff_eq]
          exact hiff.symm
        simp only [List.countP_cons, List.countP_nil, hmod]

/-- Across direction: later columns never receive more files than earlier
ones — raggedness is confined to the tail. -/
theorem assignedRows_across_antitone {α : Type} (c oh : Nat) (rows : List α)
    (j j' : Nat) (hj : j ≤ j') (hj' : j' < c) :
    (assignedRows true c oh j' 0 rows).length ≤
      (assignedRows true c oh j 0 rows).length := by
  rw [assignedRows_length, assignedRows_length]
  have hfun : ∀ jj : Nat,
      (fun t => gridColumnIndex true c oh (0 + t) == jj) =
        (fun t : Nat => t % c == jj) := by
    intro jj
    funext t
    simp [gridColumnIndex]
  rw [hfun j, hfun j', countP_mod_shift c j j' hj hj' rows.length]
  exact countP_range_mono _ (by omega)

/-- Down direction: later columns never receive more files than earlier
ones — raggedness is confined to the tail. -/
theorem assignedRows_down_antitone {α : Type} (c oh : Nat) (rows : List α)
    (hoh : 0 < oh) (j j' : Nat) (hj : j ≤ j') :
    (assignedRows false c oh j' 0 rows).length ≤
      (assignedRows false c oh j 0 rows).length := by
  rw [assignedRows_length, assignedRows_length]
  have hfun : ∀ jj : Nat,
      (fun t => gridColumnIndex false c oh (0 + t) == jj) =
        (fun t : Nat => t / oh == jj) := by
    intro jj
    funext t
    simp [gridColumnIndex]
  rw [hfun j, hfun j', countP_div_shift oh j j' hoh hj rows.length]
  exact countP_range_mono _ (by omega)

/-- C3: `make_grid` distributes the per-file rows by sending file `i` to
table `i % column_count` under across direction and to table
`i / original_height` under down direction, with
`original_height = divide_rounding_up(N, column_count)` computed from the
file-row count alone — the header row, when enabled, is seeded once per
table before any file row and is excluded from the distribution math; and
the per-column file counts are non-increasing left to right, so ragged
columns occur only at the tail, never as interior gaps. -/
theorem make_grid_tables_distribution {α : Type} (across : Bool)
    (column_count oh : Nat) (header : Option α) (rows : List α)
    (tables : List (List α)) (hc : 1 ≤ column_count)
    (hoh : divide_rounding_up rows.length column_count = some oh)
    (hmk : make_grid_tables across column_count header rows = some tables) :
    (∀ j, j < column_count →
        tables[j]? = some (headerSeed header ++
          assignedRows across column_count oh j 0 rows)) ∧
    ∀ j j', j ≤ j' → j' < column_count →
      (assignedRows across column_count oh j' 0 rows).length ≤
        (assignedRows across column_count oh j 0 rows).length := by
  unfold make_grid_tables at hmk
  rw [hoh] at hmk
  obtain ⟨hlen, hih⟩ :=
    distributeRows_getElem across column_count oh rows _ tables 0 hmk
  simp only [List.length_replicate] at hih
  constructor
  · intro j hj
    rw [hih j hj, List.getElem_replicate]
  · intro j j' hjj hj'
    cases across with
    | true => exact assignedRows_across_antitone column_count oh rows j j' hjj hj'
    | false =>
        rcases Nat.eq_zero_or_pos rows.length with h0 | h1
        · have hnil : rows = [] := List.length_eq_zero.mp h0
          subst hnil
          exact Nat.le_refl _
        · have hohpos :=
            (divide_rounding_up_spec rows.length column_count oh hc hoh).2 h1
          exact assignedRows_down_antitone column_count oh rows
            (by omega) j j' hjj

theorem make_grid_tables_distribution_witness :
    (∀ j, j < 3 →
        ([[99, 1, 2, 3], [99, 4, 5, 6], [99, 7]] : List (List Nat))[j]? =
          some (headerSeed (some 99) ++
            assignedRows false 3 3 j 0 [1, 2, 3, 4, 5, 6, 7])) ∧
    ∀ j j', j ≤ j' → j' < 3 →
      (assignedRows false 3 3 j' 0 ([1, 2, 3, 4, 5, 6, 7] : List Nat)).length ≤
        (assignedRows false 3 3 j 0 ([1, 2, 3, 4, 5, 6, 7] : List Nat)).length :=
  make_grid_tables_distribution false 3 3 (some 99) [1, 2, 3, 4, 5, 6, 7]
    [[99, 1, 2, 3], [99, 4, 5, 6], [99, 7]] (by decide) (by decide) (by decide)

/-- C9: for `column_count ≥ 1` the distribution phase of `make_grid` cannot
panic — `divide_rounding_up` is called with the nonzero divisor
`column_count` and succeeds, every computed column index stays below
`column_count`, so `tables[index]` is always in bounds and the whole
distribution returns a value. -/
theorem make_grid_tables_safe {α : Type} (across : Bool) (column_count : Nat)
    (header : Option α) (rows : List α) (hc : 1 ≤ column_count) :
    (make_grid_tables across column_count header rows).isSome = true ∧
      ∀ oh, divide_rounding_up rows.length column_count = some oh →
        ∀ i, i < rows.length →
          gridColumnIndex across column_count oh i < column_count := by
  have hdru := divide_rounding_up_pos rows.length column_count (by omega)
  constructor
  · unfold make_grid_tables
    rw [hdru]
    exact distributeRows_isSome across column_count _ rows.length hc
      (divide_rounding_up_spec rows.length column_count _ hc hdru).1 rows _ 0
      (List.length_replicate _ _) (by omega)
  · intro oh hoh i hi
    exact gridColumnIndex_lt across column_count oh i rows.length hc hi
      (divide_rounding_up_spec rows.length column_count oh hc hoh).1

theorem make_grid_tables_safe_witness :
    (make_grid_tables false 3 (none : Option Nat)
        [10, 20, 30, 40, 50]).isSome = true ∧
      ∀ oh, divide_rounding_up
          ([10, 20, 30, 40, 50] : List Nat).length 3 = some oh →
        ∀ i, i < ([10, 20, 30, 40, 50] : List Nat).length →
          gridColumnIndex false 3 oh i < 3 :=
  make_grid_tables_safe false 3 none [10, 20, 30, 40, 50] (by decide)

/-- C5 fails on `paint_str`, which contradicts its own doc comment
("computing the Unicode width of the text"): for the one-character string
"é" — two UTF-8 bytes, display width one — the cell records length 2 while
the concatenated fragments occupy one terminal column; `paint`, by
contrast, records the display width. -/
theorem paint_str_records_byte_length (w : Char → Nat) (style : Style)
    (hw : w 'é' = 1) :
    (TextCell.paint_str style "é").length = 2 ∧
      TextCell.displayWidth w (TextCell.paint_str style "é") = 1 ∧
      (TextCell.paint w style "é").length = 1 := by
  refine ⟨rfl, ?_, ?_⟩
  · simp [TextCell.displayWidth, TextCell.paint_str, strDisplayWidth, hw]
  · simp [TextCell.paint, strDisplayWidth, hw]

theorem paint_str_records_byte_length_witness :
    (TextCell.paint_str {} "é").length = 2 ∧
      TextCell.displayWidth (fun _ => 1) (TextCell.paint_str {} "é") = 1 ∧
      (TextCell.paint (fun _ => 1) {} "é").length = 1 :=
  paint_str_records_byte_length (fun _ => 1) {} rfl

/-- C7: in every branch of the width computation the recorded name-cell
width carries a +2 quoting allowance exactly when the quote style is
`QuoteSpaces` and the name contains a space, and no quoting allowance
otherwise — the hyperlink-off branch reads it out of the painted contents'
width, the hyperlink-on branches add `space_filename_offset` explicitly. -/
theorem name_cell_width_quoting (embed : EmbedHyperlinks) (icons : ShowIcons)
    (qs : QuoteStyle) (name : String) (bare_width : Nat) :
    name_cell_width embed icons bare_width
        (modelled_contents_width icons qs name bare_width)
        (space_filename_offset qs name) =
      bare_width + iconAllowance icons +
        (if qs = QuoteStyle.QuoteSpaces ∧ name.data.contains ' ' = true
         then 2 else 0) := by
  have hoff : space_filename_offset qs name =
      (if qs = QuoteStyle.QuoteSpaces ∧ name.data.contains ' ' = true
       then 2 else 0) := by
    cases qs with
    | QuoteSpaces =>
        by_cases hsp : name.data.contains ' ' = true <;>
          simp [space_filename_offset, hsp]
    | NoQuotes => simp [space_filename_offset]
  cases embed with
  | On =>
      cases icons with
      | Automatic spacing =>
          simp only [name_cell_width, iconAllowance, hoff]
          omega
      | Always spacing =>
          simp only [name_cell_width, iconAllowance, hoff]
          omega
      | Never =>
          simp only [name_cell_width, iconAllowance, hoff]
          omega
  | Off =>
      simp only [name_cell_width, modelled_contents_width, hoff]

/-- C8: the table built by `make_table` has no Git column exactly when the
availability query — directed at the governing directory when one exists,
otherwise at the listed files — reports nothing; and without a Git
reference to begin with there is never a Git column. -/
theorem make_table_git_column (g : GitCache) (dir : Option MDir)
    (files : List MFile) :
    ((make_table (some g) dir files).hasGitColumn = false ↔
      (match dir with
       | some d => g.has_anything_for d.path = false
       | none => ∀ f ∈ files, g.has_anything_for f.path = false)) ∧
    (make_table none dir files).hasGitColumn = false := by
  constructor
  · cases dir with
    | some d =>
        by_cases hq : g.has_anything_for d.path <;>
          simp [make_table, make_table_git, hq]
    | none =>
        by_cases hq : files.any (fun f => g.has_anything_for f.path) = true
        · simp [make_table, make_table_git, hq]
          exact List.any_eq_true.mp hq
        · simp [make_table, make_table_git, hq]
          intro f hf
          cases hb : g.has_anything_for f.path with
          | false => rfl
          | true => exact absurd (List.any_eq_true.mpr ⟨f, hf, hb⟩) hq
  · cases dir <;> simp [make_table, make_table_git]

/-- C10: any name that starts, case-insensitively, with "readme" is
classified `Build`, whatever its extension, its temporary-suffix shape, or
its relation to source files — the readme check precedes every other rule;
and the extension table maps "pdf" to `Document`, so a file such as
"readme.pdf" is `Build` despite its extension. -/
theorem get_file_type_readme (name : String) (ext : Option String)
    (path : String) (compiled_related : Bool)
    (h : List.isPrefixOf "readme".data (name.data.map Char.toLower) = true) :
    get_file_type ⟨name, ext, path⟩ compiled_related = some FileType.Build ∧
      EXTENSION_TYPES.lookup "pdf" = some FileType.Document := by
  constructor
  · unfold get_file_type
    rw [if_pos h]
  · rfl

theorem get_file_type_readme_witness :
    get_file_type ⟨"README.pdf", some "pdf", ""⟩ false =
        some FileType.Build ∧
      EXTENSION_TYPES.lookup "pdf" = some FileType.Document :=
  get_file_type_readme "README.pdf" (some "pdf") "" false (by decide)

end Eza
